import Mathlib

/-!
# Verification of the GeoEncode coordinate codec

Shallow embedding of `geoencode.cc` / `geoencode.h` (GeoEncode namespace):
a 6-byte encoding of latitude/longitude coordinates, its decoder, and a
bounding-box decoder with a first-byte prefix rejection test.

Modelling conventions:
* C `double` values are modelled as exact rationals (`ℚ`); all arithmetic
  performed by the code on the reachable inputs is exact in this model.
* C `round` (round half away from zero) is `roundQ`; C `fmod` is `fmodQ`
  (truncated remainder, exact for rationals).
* Bytes are modelled as `ℕ`; the C shift/mask operations on in-range
  values are embedded as the corresponding division/remainder/multiply
  arithmetic (`x >> k` is `x / 2^k`, `x & (2^k - 1)` is `x % 2^k`,
  `x << k` is `x * 2^k`, and `|` of disjoint bit fields is `+`); the
  `char`/`unsigned char` conversions are `% 256` where the source
  performs them on values not already provably below 256.
* The `int` quantities (`lat_16ths`, `lon_16ths`) are `ℤ`; the degree
  splitter receives only non-negative values in the code, so it is
  defined on `ℕ` and the call sites convert with `Int.toNat`.
-/

namespace GeoEncode

/-- C `round` on a rational: round to nearest, half away from zero. -/
def roundQ (x : ℚ) : ℤ := if 0 ≤ x then ⌊x + 1 / 2⌋ else ⌈x - 1 / 2⌉

/-- Truncation toward zero, as performed by C float-to-int conversion and
inside `fmod`. -/
def truncQ (x : ℚ) : ℤ := if 0 ≤ x then ⌊x⌋ else ⌈x⌉

/-- C `fmod x y`: `x - trunc (x / y) * y` (exact for rationals). -/
def fmodQ (x y : ℚ) : ℚ := x - (truncQ (x / y) : ℚ) * y

/-- The longitude wrapping idiom used throughout the source:
`lon = fmod(lon, 360.0); if (lon < 0) lon += 360;`. -/
def wrap360 (lon : ℚ) : ℚ :=
  if fmodQ lon 360 < 0 then fmodQ lon 360 + 360 else fmodQ lon 360

/-- Angles split into degrees, minutes, seconds and 16ths of a second
(struct `DegreesMinutesSeconds`). -/
structure DegreesMinutesSeconds where
  degrees : ℕ
  minutes : ℕ
  seconds : ℕ
  sec16ths : ℕ
  deriving Repr, DecidableEq

/-- The `DegreesMinutesSeconds` constructor: divmod chain by `3600*16`,
then `60*16`, then `16`.  The source takes an `int` that is non-negative
at every call site; we use `ℕ`. -/
def mkDMS (angle_16th_secs : ℕ) : DegreesMinutesSeconds :=
  { degrees := angle_16th_secs / (3600 * 16)
  , minutes := angle_16th_secs % (3600 * 16) / (60 * 16)
  , seconds := angle_16th_secs % (3600 * 16) % (60 * 16) / 16
  , sec16ths := angle_16th_secs % (3600 * 16) % (60 * 16) % 16 }

/-- The byte-packing step shared verbatim by both versions of
`GeoEncode::encode` (the six `result[old_len + i] = ...` assignments).
`dd >> 8` is `dd / 256`, `dd & 0xff` is `dd % 256`; the nibble/bit packs
`(a << k) | b` of disjoint in-range fields are `a * 2^k + b`. -/
def packBytes (lat_dms lon_dms : DegreesMinutesSeconds) : List ℕ :=
  let dd := lat_dms.degrees + lon_dms.degrees * 181
  [ dd / 256
  , dd % 256
  , lat_dms.minutes / 4 * 16 + lon_dms.minutes / 4
  , lat_dms.minutes % 4 * 64 + lon_dms.minutes % 4 * 16 +
      lat_dms.seconds / 15 * 4 + lon_dms.seconds / 15
  , lat_dms.seconds % 15 * 16 + lon_dms.seconds % 15
  , lat_dms.sec16ths * 16 + lon_dms.sec16ths ]

/-- `GeoEncode::encode` (the later version, geoencode.cc lines 248-308):
wraps the longitude up front, checks the latitude range, quantizes,
applies the pole normalization and the 360-degree fold, splits and packs.
Returns the C `bool` together with the output string (failure leaves the
string untouched, success appends the six bytes). -/
def encode (lat lon : ℚ) (result : List ℕ) : Bool × List ℕ :=
  if lat < -90 ∨ lat > 90 then (false, result)
  else
    let lon' := wrap360 lon
    let lat_16ths : ℤ := roundQ ((lat + 90) * 57600)
    let lon_16ths : ℤ :=
      if lat_16ths = 0 ∨ lat_16ths = 57600 * 180 then 0
      else
        let l := roundQ (lon' * 57600)
        if l = 57600 * 360 then 0 else l
    let lat_dms := mkDMS lat_16ths.toNat
    let lon_dms := mkDMS lon_16ths.toNat
    (true, result ++ packBytes lat_dms lon_dms)

/-- The earlier version of `GeoEncode::encode` (geoencode.cc lines
72-131): identical except that the longitude wrap is performed inside the
non-pole branch instead of up front. -/
def encode_v1 (lat lon : ℚ) (result : List ℕ) : Bool × List ℕ :=
  if lat < -90 ∨ lat > 90 then (false, result)
  else
    let lat_int : ℤ := roundQ ((lat + 90) * 57600)
    let lon_int : ℤ :=
      if lat_int = 0 ∨ lat_int = 57600 * 180 then 0
      else
        let lon' := wrap360 lon
        let l := roundQ (lon' * 57600)
        if l = 57600 * 360 then 0 else l
    let lat_dms := mkDMS lat_int.toNat
    let lon_dms := mkDMS lon_int.toNat
    (true, result ++ packBytes lat_dms lon_dms)

/-- The quantized latitude count computed by `encode` and
`calc_latlon_16ths`: `round((lat + 90.0) * 57600.0)`. -/
def latUnits (lat : ℚ) : ℤ := roundQ ((lat + 90) * 57600)

/-- The quantized wrapped longitude count with the 360-degree fold, as
computed by `encode` in the non-pole branch. -/
def lonUnitsRaw (lon : ℚ) : ℤ :=
  if roundQ (wrap360 lon * 57600) = 57600 * 360 then 0
  else roundQ (wrap360 lon * 57600)

/-- The longitude count actually encoded: zero when the quantized
latitude is a pole, `lonUnitsRaw` otherwise. -/
def lonUnits (lat lon : ℚ) : ℤ :=
  if latUnits lat = 0 ∨ latUnits lat = 57600 * 180 then 0 else lonUnitsRaw lon

/-- `GeoEncode::decode(const char *, size_t)`.  The input is the byte
buffer (each entry an octet); out-of-range reads cannot occur for the
buffer lengths the code supports (`len ≥ 2`), `List.getD _ 0` is used for
totality.  `tmp >> k` / `tmp & m` are embedded as division/remainder as
described in the header comment. -/
def decode (value : List ℕ) : ℚ × ℚ :=
  let len := value.length
  let tmp := value.getD 0 0 % 256 * 256 + value.getD 1 0 % 256
  let rlat : ℚ := (tmp % 181 : ℕ)
  let rlon : ℚ := (tmp / 181 : ℕ)
  if 2 < len then
    let t2 := value.getD 2 0
    let lat_m : ℚ := (t2 / 16 * 4 : ℕ)
    let lon_m : ℚ := (t2 % 16 * 4 : ℕ)
    if 3 < len then
      let t3 := value.getD 3 0
      let lat_m : ℚ := lat_m + (t3 / 64 % 4 : ℕ)
      let lon_m : ℚ := lon_m + (t3 / 16 % 4 : ℕ)
      let lat_s : ℚ := (t3 / 4 % 4 * 15 : ℕ)
      let lon_s : ℚ := (t3 % 4 * 15 : ℕ)
      if 4 < len then
        let t4 := value.getD 4 0
        let lat_s : ℚ := lat_s + (t4 / 16 % 16 : ℕ)
        let lon_s : ℚ := lon_s + (t4 % 16 : ℕ)
        if 5 < len then
          let t5 := value.getD 5 0
          let lat_s : ℚ := lat_s + ((t5 / 16 : ℕ) : ℚ) / 16
          let lon_s : ℚ := lon_s + ((t5 % 16 : ℕ) : ℚ) / 16
          (rlat + (lat_m + lat_s / 60) / 60 - 90, rlon + (lon_m + lon_s / 60) / 60)
        else
          (rlat + (lat_m + lat_s / 60) / 60 - 90, rlon + (lon_m + lon_s / 60) / 60)
      else
        (rlat + (lat_m + lat_s / 60) / 60 - 90, rlon + (lon_m + lon_s / 60) / 60)
    else
      (rlat + lat_m / 60 - 90, rlon + lon_m / 60)
  else
    (rlat - 90, rlon)

/-- `calc_latlon_16ths`: degree quantization used for the bounding-box
corners (same formula as the encoder, including the 360-degree fold, but
without pole normalization). -/
def calc_latlon_16ths (lat lon : ℚ) : ℤ × ℤ :=
  let lat_16ths := roundQ ((lat + 90) * 57600)
  let lon_16ths := roundQ (lon * 57600)
  (lat_16ths, if lon_16ths = 57600 * 360 then 0 else lon_16ths)

/-- State of `GeoEncode::DecoderWithBoundingBox` after construction. -/
structure DecoderWithBoundingBox where
  lon1 : ℚ
  lon2 : ℚ
  min_lat : ℚ
  max_lat : ℚ
  start1 : ℕ
  start2 : ℕ
  include_poles : Bool
  discontinuous_longitude_range : Bool

/-- The `DecoderWithBoundingBox` constructor: wraps both corner
longitudes, computes each corner's first encoded byte from its
degree-level quantization (`unsigned dd = ...; start = char(dd >> 8)`),
records whether either corner latitude quantizes to a pole, and whether
the wrapped longitude range crosses the 0/360 seam. -/
def mkDecoderWithBoundingBox (lat1 lon1_ lat2 lon2_ : ℚ) : DecoderWithBoundingBox :=
  let lon1 := wrap360 lon1_
  let lon2 := wrap360 lon2_
  let c1 := calc_latlon_16ths lat1 lon1
  let dd1 := c1.1.toNat / (3600 * 16) + c1.2.toNat / (3600 * 16) * 181
  let c2 := calc_latlon_16ths lat2 lon2
  let dd2 := c2.1.toNat / (3600 * 16) + c2.2.toNat / (3600 * 16) * 181
  { lon1 := lon1
  , lon2 := lon2
  , min_lat := lat1
  , max_lat := lat2
  , start1 := dd1 / 256 % 256
  , start2 := dd2 / 256 % 256
  , include_poles :=
      (c1.1 == 0 || c1.1 == 57600 * 180) || (c2.1 == 0 || c2.1 == 57600 * 180)
  , discontinuous_longitude_range := decide (lon2 < lon1) }

/-- The part of `GeoEncode::DecoderWithBoundingBox::decode` after the
first-byte prefix test: the full decode followed by the latitude range
check, the pole acceptance, and the longitude range check. -/
def DecoderWithBoundingBox.decodeRest (b : DecoderWithBoundingBox) (value : List ℕ)
    (result : ℚ × ℚ) : Bool × (ℚ × ℚ) :=
  let decoded := GeoEncode.decode value
  if decoded.1 < b.min_lat ∨ decoded.1 > b.max_lat then (false, result)
  else if decoded.1 = -90 ∨ decoded.1 = 90 then (true, decoded)
  else if b.discontinuous_longitude_range then
    if b.lon2 < decoded.2 ∧ decoded.2 < b.lon1 then (false, result)
    else (true, decoded)
  else
    if decoded.2 < b.lon1 ∨ b.lon2 < decoded.2 then (false, result)
    else (true, decoded)

/-- `GeoEncode::DecoderWithBoundingBox::decode`: the O(1) first-byte
prefix rejection (`unsigned char start = value[0];` is
`value.getD 0 0 % 256`) followed by `decodeRest`.  The caller-supplied
`result` out-parameter is threaded through explicitly; each
`return false` leaves it unchanged. -/
def DecoderWithBoundingBox.decode (b : DecoderWithBoundingBox) (value : List ℕ)
    (result : ℚ × ℚ) : Bool × (ℚ × ℚ) :=
  let start := value.getD 0 0 % 256
  if b.discontinuous_longitude_range then
    if b.start2 < start ∧ start < b.start1 ∧ ¬(b.include_poles = true ∧ start = 0) then
      (false, result)
    else b.decodeRest value result
  else
    if (start < b.start1 ∨ b.start2 < start) ∧ ¬(b.include_poles = true ∧ start = 0) then
      (false, result)
    else b.decodeRest value result

/-- A rational lies on the 1/16-arcsecond quantization grid. -/
def isGrid (x : ℚ) : Prop := ∃ n : ℤ, x * 57600 = (n : ℚ)

/-- `x` is an exact half-integer (the tie case of round-to-nearest). -/
def halfTie (x : ℚ) : Prop := (∃ n : ℤ, x - 1 / 2 = (n : ℚ))

/-- The direct bounding-box membership check described by the
specification: latitude between the corner latitudes, and either the
point is a pole or its wrapped longitude lies in the wrapped corner
interval (taken across the 0/360 seam when wrapped `lon1` exceeds
wrapped `lon2`). -/
def inBoxSpec (lat1 lon1 lat2 lon2 lat lon : ℚ) : Prop :=
  lat1 ≤ lat ∧ lat ≤ lat2 ∧
    (lat = -90 ∨ lat = 90 ∨
      (if wrap360 lon1 ≤ wrap360 lon2 then
        wrap360 lon1 ≤ wrap360 lon ∧ wrap360 lon ≤ wrap360 lon2
      else
        wrap360 lon1 ≤ wrap360 lon ∨ wrap360 lon ≤ wrap360 lon2))

/-! ## Arithmetic helper lemmas -/


theorem roundQ_intCast (n : ℤ) : roundQ (n : ℚ) = n := by
  unfold roundQ
  split
  · rw [add_comm, Int.floor_add_int]
    norm_num
  · rw [sub_eq_add_neg, add_comm, Int.ceil_add_int]
    norm_num

theorem roundQ_mono {x y : ℚ} (h : x ≤ y) : roundQ x ≤ roundQ y := by
  unfold roundQ
  split <;> split
  · exact Int.floor_le_floor (by linarith)
  · rename_i hx hy; exact (hy (hx.trans h)).elim
  · rename_i hx hy
    have h1 : ⌈x - 1/2⌉ ≤ 0 := Int.ceil_le.mpr (by push_cast; linarith)
    have h2 : (0:ℤ) ≤ ⌊y + 1/2⌋ := Int.le_floor.mpr (by push_cast; linarith)
    omega
  · exact Int.ceil_le_ceil (by linarith)

theorem roundQ_le_intCast {x : ℚ} {n : ℤ} (h : x ≤ (n : ℚ)) : roundQ x ≤ n := by
  have := roundQ_mono h
  rwa [roundQ_intCast] at this

theorem intCast_le_roundQ {x : ℚ} {n : ℤ} (h : (n : ℚ) ≤ x) : n ≤ roundQ x := by
  have := roundQ_mono h
  rwa [roundQ_intCast] at this

theorem roundQ_nonneg {x : ℚ} (h : 0 ≤ x) : 0 ≤ roundQ x :=
  intCast_le_roundQ (by exact_mod_cast h)

theorem fmodQ_360_nonneg_of_nonneg {x : ℚ} (h : 0 ≤ x) : 0 ≤ fmodQ x 360 := by
  unfold fmodQ truncQ
  rw [if_pos (by positivity)]
  have h1 : ((⌊x / 360⌋ : ℚ)) ≤ x / 360 := Int.floor_le _
  have h2 : ((⌊x / 360⌋ : ℚ)) * 360 ≤ x / 360 * 360 :=
    mul_le_mul_of_nonneg_right h1 (by norm_num)
  rw [div_mul_cancel₀] at h2 <;> [linarith; norm_num]

theorem fmodQ_360_lt_of_nonneg {x : ℚ} (h : 0 ≤ x) : fmodQ x 360 < 360 := by
  unfold fmodQ truncQ
  rw [if_pos (by positivity)]
  have h1 : x / 360 < ((⌊x / 360⌋ : ℚ)) + 1 := Int.lt_floor_add_one _
  have h2 : x / 360 * 360 < (((⌊x / 360⌋ : ℚ)) + 1) * 360 := by
    apply mul_lt_mul_of_pos_right h1 (by norm_num)
  rw [div_mul_cancel₀] at h2 <;> [nlinarith; norm_num]

theorem fmodQ_360_nonpos_of_neg {x : ℚ} (h : x < 0) : fmodQ x 360 ≤ 0 := by
  unfold fmodQ truncQ
  rw [if_neg (by intro hc; nlinarith [div_nonneg_iff.mp hc])]
  have h1 : x / 360 ≤ ((⌈x / 360⌉ : ℚ)) := Int.le_ceil _
  have h2 : x / 360 * 360 ≤ ((⌈x / 360⌉ : ℚ)) * 360 :=
    mul_le_mul_of_nonneg_right h1 (by norm_num)
  rw [div_mul_cancel₀] at h2 <;> [linarith; norm_num]

theorem fmodQ_360_gt_of_neg {x : ℚ} (h : x < 0) : -360 < fmodQ x 360 := by
  unfold fmodQ truncQ
  rw [if_neg (by intro hc; nlinarith [div_nonneg_iff.mp hc])]
  have h1 : ((⌈x / 360⌉ : ℚ)) < x / 360 + 1 := Int.ceil_lt_add_one _
  have h2 : ((⌈x / 360⌉ : ℚ)) * 360 < (x / 360 + 1) * 360 :=
    mul_lt_mul_of_pos_right h1 (by norm_num)
  rw [add_mul, div_mul_cancel₀] at h2 <;> [linarith; norm_num]

theorem wrap360_nonneg (x : ℚ) : 0 ≤ wrap360 x := by
  unfold wrap360
  rcases le_or_lt 0 x with h | h
  · rw [if_neg (not_lt.mpr (fmodQ_360_nonneg_of_nonneg h))]
    exact fmodQ_360_nonneg_of_nonneg h
  · split
    · linarith [fmodQ_360_gt_of_neg h]
    · rename_i hl; linarith [not_lt.mp hl]

theorem wrap360_lt (x : ℚ) : wrap360 x < 360 := by
  unfold wrap360
  rcases le_or_lt 0 x with h | h
  · rw [if_neg (not_lt.mpr (fmodQ_360_nonneg_of_nonneg h))]
    exact fmodQ_360_lt_of_nonneg h
  · split
    · linarith [fmodQ_360_gt_of_neg h]
    · rename_i hl; linarith [fmodQ_360_nonpos_of_neg h, not_lt.mp hl]

theorem wrap360_sub (x : ℚ) : ∃ k : ℤ, wrap360 x = x - (k : ℚ) * 360 := by
  unfold wrap360 fmodQ
  split
  · exact ⟨truncQ (x / 360) - 1, by push_cast; ring⟩
  · exact ⟨truncQ (x / 360), by ring⟩

theorem isGrid_wrap360 {x : ℚ} (h : isGrid x) : isGrid (wrap360 x) := by
  obtain ⟨n, hn⟩ := h
  obtain ⟨k, hk⟩ := wrap360_sub x
  exact ⟨n - k * 20736000, by rw [hk, sub_mul, hn]; push_cast; ring⟩


/-! ## Encoder and decoder structure lemmas -/


theorem encode_eq (lat lon : ℚ) (res : List ℕ) :
    encode lat lon res =
      if lat < -90 ∨ lat > 90 then (false, res)
      else (true, res ++ packBytes (mkDMS (latUnits lat).toNat) (mkDMS (lonUnits lat lon).toNat)) :=
  rfl

theorem encode_v1_eq_encode_aux (lat lon : ℚ) (res : List ℕ) :
    encode_v1 lat lon res = encode lat lon res := rfl

theorem latUnits_nonneg {lat : ℚ} (h : -90 ≤ lat) : 0 ≤ latUnits lat :=
  roundQ_nonneg (by nlinarith)

theorem latUnits_le {lat : ℚ} (h : lat ≤ 90) : latUnits lat ≤ 10368000 :=
  roundQ_le_intCast (by push_cast; nlinarith)

theorem latUnits_mono {a b : ℚ} (h : a ≤ b) : latUnits a ≤ latUnits b :=
  roundQ_mono (by nlinarith)

theorem lonUnitsRaw_nonneg (lon : ℚ) : 0 ≤ lonUnitsRaw lon := by
  unfold lonUnitsRaw
  split
  · exact le_refl 0
  · exact roundQ_nonneg (by nlinarith [wrap360_nonneg lon])

theorem lonUnitsRaw_le (lon : ℚ) : lonUnitsRaw lon ≤ 20735999 := by
  unfold lonUnitsRaw
  split
  · norm_num
  · rename_i hne
    have h1 : roundQ (wrap360 lon * 57600) ≤ 20736000 :=
      roundQ_le_intCast (by push_cast; nlinarith [wrap360_lt lon])
    omega

theorem lonUnits_nonneg (lat lon : ℚ) : 0 ≤ lonUnits lat lon := by
  unfold lonUnits
  split
  · exact le_refl 0
  · exact lonUnitsRaw_nonneg lon

theorem lonUnits_le (lat lon : ℚ) : lonUnits lat lon ≤ 20735999 := by
  unfold lonUnits
  split
  · norm_num
  · exact lonUnitsRaw_le lon

/-- On the grid, the quantization is exact. -/
theorem latUnits_grid {lat : ℚ} (hg : isGrid lat) :
    ((latUnits lat : ℤ) : ℚ) = (lat + 90) * 57600 := by
  obtain ⟨n, hn⟩ := hg
  have h : (lat + 90) * 57600 = ((n + 5184000 : ℤ) : ℚ) := by
    push_cast
    nlinarith [hn]
  unfold latUnits
  rw [h, roundQ_intCast]

theorem lonUnitsRaw_grid {lon : ℚ} (hg : isGrid lon) :
    ((lonUnitsRaw lon : ℤ) : ℚ) = wrap360 lon * 57600 := by
  obtain ⟨m, hm⟩ := isGrid_wrap360 hg
  have hlt : (m : ℚ) < 20736000 := by
    rw [← hm]; nlinarith [wrap360_lt lon]
  have hr : roundQ (wrap360 lon * 57600) = m := by rw [hm, roundQ_intCast]
  unfold lonUnitsRaw
  rw [hr, hm]
  rw [if_neg]
  intro hc
  rw [hc] at hlt
  norm_num at hlt



theorem decode_cons6 (b0 b1 b2 b3 b4 b5 : ℕ) :
    decode [b0, b1, b2, b3, b4, b5] =
      (((b0 % 256 * 256 + b1 % 256) % 181 : ℕ)
         + (((b2 / 16 * 4 : ℕ) : ℚ) + ((b3 / 64 % 4 : ℕ) : ℚ)
             + (((b3 / 4 % 4 * 15 : ℕ) : ℚ) + ((b4 / 16 % 16 : ℕ) : ℚ)
                 + ((b5 / 16 : ℕ) : ℚ) / 16) / 60) / 60
         - 90,
       ((b0 % 256 * 256 + b1 % 256) / 181 : ℕ)
         + (((b2 % 16 * 4 : ℕ) : ℚ) + ((b3 / 16 % 4 : ℕ) : ℚ)
             + (((b3 % 4 * 15 : ℕ) : ℚ) + ((b4 % 16 : ℕ) : ℚ)
                 + ((b5 % 16 : ℕ) : ℚ) / 16) / 60) / 60) := by
  simp only [decode, List.length_cons, List.length_nil, List.getD, List.getElem?_cons_zero,
    List.getElem?_cons_succ, Option.getD_some]
  norm_num

theorem decode_cons2 (b0 b1 : ℕ) :
    decode [b0, b1] =
      ((((b0 % 256 * 256 + b1 % 256) % 181 : ℕ) : ℚ) - 90,
       (((b0 % 256 * 256 + b1 % 256) / 181 : ℕ) : ℚ)) := by
  simp only [decode, List.length_cons, List.length_nil, List.getD, List.getElem?_cons_zero,
    List.getElem?_cons_succ, Option.getD_some]
  norm_num

theorem decode_cons3 (b0 b1 b2 : ℕ) :
    decode [b0, b1, b2] =
      (((b0 % 256 * 256 + b1 % 256) % 181 : ℕ) + ((b2 / 16 * 4 : ℕ) : ℚ) / 60 - 90,
       ((b0 % 256 * 256 + b1 % 256) / 181 : ℕ) + ((b2 % 16 * 4 : ℕ) : ℚ) / 60) := by
  simp only [decode, List.length_cons, List.length_nil, List.getD, List.getElem?_cons_zero,
    List.getElem?_cons_succ, Option.getD_some]
  norm_num

theorem decode_cons4 (b0 b1 b2 b3 : ℕ) :
    decode [b0, b1, b2, b3] =
      (((b0 % 256 * 256 + b1 % 256) % 181 : ℕ)
         + (((b2 / 16 * 4 : ℕ) : ℚ) + ((b3 / 64 % 4 : ℕ) : ℚ)
             + ((b3 / 4 % 4 * 15 : ℕ) : ℚ) / 60) / 60 - 90,
       ((b0 % 256 * 256 + b1 % 256) / 181 : ℕ)
         + (((b2 % 16 * 4 : ℕ) : ℚ) + ((b3 / 16 % 4 : ℕ) : ℚ)
             + ((b3 % 4 * 15 : ℕ) : ℚ) / 60) / 60) := by
  simp only [decode, List.length_cons, List.length_nil, List.getD, List.getElem?_cons_zero,
    List.getElem?_cons_succ, Option.getD_some]
  norm_num

theorem decode_cons5 (b0 b1 b2 b3 b4 : ℕ) :
    decode [b0, b1, b2, b3, b4] =
      (((b0 % 256 * 256 + b1 % 256) % 181 : ℕ)
         + (((b2 / 16 * 4 : ℕ) : ℚ) + ((b3 / 64 % 4 : ℕ) : ℚ)
             + (((b3 / 4 % 4 * 15 : ℕ) : ℚ) + ((b4 / 16 % 16 : ℕ) : ℚ)) / 60) / 60 - 90,
       ((b0 % 256 * 256 + b1 % 256) / 181 : ℕ)
         + (((b2 % 16 * 4 : ℕ) : ℚ) + ((b3 / 16 % 4 : ℕ) : ℚ)
             + (((b3 % 4 * 15 : ℕ) : ℚ) + ((b4 % 16 : ℕ) : ℚ)) / 60) / 60) := by
  simp only [decode, List.length_cons, List.length_nil, List.getD, List.getElem?_cons_zero,
    List.getElem?_cons_succ, Option.getD_some]
  norm_num

theorem decode_pack_digits (A B Ma Mb Sa Sb Ta Tb : ℕ)
    (hA : A ≤ 180) (hB : B ≤ 359) (_hMa : Ma ≤ 59) (hMb : Mb ≤ 59)
    (hSa : Sa ≤ 59) (hSb : Sb ≤ 59) (_hTa : Ta ≤ 15) (hTb : Tb ≤ 15) :
    decode [ (A + B * 181) / 256, (A + B * 181) % 256,
             Ma / 4 * 16 + Mb / 4,
             Ma % 4 * 64 + Mb % 4 * 16 + Sa / 15 * 4 + Sb / 15,
             Sa % 15 * 16 + Sb % 15,
             Ta * 16 + Tb ] =
      ((A : ℚ) + ((Ma : ℚ) + ((Sa : ℚ) + (Ta : ℚ) / 16) / 60) / 60 - 90,
       (B : ℚ) + ((Mb : ℚ) + ((Sb : ℚ) + (Tb : ℚ) / 16) / 60) / 60) := by
  rw [decode_cons6]
  have hk : (A + B * 181) / 256 % 256 = (A + B * 181) / 256 :=
    Nat.mod_eq_of_lt (by omega)
  have hr : (A + B * 181) % 256 % 256 = (A + B * 181) % 256 :=
    Nat.mod_eq_of_lt (by omega)
  rw [hk, hr]
  have e1 : ((A + B * 181) / 256 * 256 + (A + B * 181) % 256) % 181 = A := by
    have hdm : (A + B * 181) / 256 * 256 + (A + B * 181) % 256 = A + B * 181 := by omega
    rw [hdm]
    omega
  have e1' : ((A + B * 181) / 256 * 256 + (A + B * 181) % 256) / 181 = B := by
    have hdm : (A + B * 181) / 256 * 256 + (A + B * 181) % 256 = A + B * 181 := by omega
    rw [hdm]
    omega
  have e2 : (Ma / 4 * 16 + Mb / 4) / 16 * 4 = Ma / 4 * 4 := by omega
  have e2' : (Ma / 4 * 16 + Mb / 4) % 16 * 4 = Mb / 4 * 4 := by omega
  have e3 : (Ma % 4 * 64 + Mb % 4 * 16 + Sa / 15 * 4 + Sb / 15) / 64 % 4 = Ma % 4 := by omega
  have e3' : (Ma % 4 * 64 + Mb % 4 * 16 + Sa / 15 * 4 + Sb / 15) / 16 % 4 = Mb % 4 := by omega
  have e4 : (Ma % 4 * 64 + Mb % 4 * 16 + Sa / 15 * 4 + Sb / 15) / 4 % 4 * 15 = Sa / 15 * 15 := by
    omega
  have e4' : (Ma % 4 * 64 + Mb % 4 * 16 + Sa / 15 * 4 + Sb / 15) % 4 * 15 = Sb / 15 * 15 := by
    omega
  have e5 : (Sa % 15 * 16 + Sb % 15) / 16 % 16 = Sa % 15 := by omega
  have e5' : (Sa % 15 * 16 + Sb % 15) % 16 = Sb % 15 := by omega
  have e6 : (Ta * 16 + Tb) / 16 = Ta := by omega
  have e6' : (Ta * 16 + Tb) % 16 = Tb := by omega
  rw [e1, e1', e2, e2', e3, e3', e4, e4', e5, e5', e6, e6']
  have cMa : ((Ma / 4 * 4 : ℕ) : ℚ) + ((Ma % 4 : ℕ) : ℚ) = (Ma : ℚ) := by
    rw [← Nat.cast_add]
    exact congrArg _ (by omega)
  have cMb : ((Mb / 4 * 4 : ℕ) : ℚ) + ((Mb % 4 : ℕ) : ℚ) = (Mb : ℚ) := by
    rw [← Nat.cast_add]
    exact congrArg _ (by omega)
  have cSa : ((Sa / 15 * 15 : ℕ) : ℚ) + ((Sa % 15 : ℕ) : ℚ) = (Sa : ℚ) := by
    rw [← Nat.cast_add]
    exact congrArg _ (by omega)
  have cSb : ((Sb / 15 * 15 : ℕ) : ℚ) + ((Sb % 15 : ℕ) : ℚ) = (Sb : ℚ) := by
    rw [← Nat.cast_add]
    exact congrArg _ (by omega)
  rw [Prod.mk.injEq]
  constructor
  · linarith [cMa, cSa]
  · linarith [cMb, cSb]

theorem decode_packBytes (la lo : ℕ) (hla : la ≤ 10368000) (hlo : lo ≤ 20735999) :
    decode (packBytes (mkDMS la) (mkDMS lo)) = ((la : ℚ) / 57600 - 90, (lo : ℚ) / 57600) := by
  have h := decode_pack_digits (la / (3600 * 16)) (lo / (3600 * 16))
    (la % (3600 * 16) / (60 * 16)) (lo % (3600 * 16) / (60 * 16))
    (la % (3600 * 16) % (60 * 16) / 16) (lo % (3600 * 16) % (60 * 16) / 16)
    (la % (3600 * 16) % (60 * 16) % 16) (lo % (3600 * 16) % (60 * 16) % 16)
    (by omega) (by omega) (by omega) (by omega) (by omega) (by omega) (by omega) (by omega)
  have hpack : packBytes (mkDMS la) (mkDMS lo) =
      [ (la / (3600 * 16) + lo / (3600 * 16) * 181) / 256,
        (la / (3600 * 16) + lo / (3600 * 16) * 181) % 256,
        la % (3600 * 16) / (60 * 16) / 4 * 16 + lo % (3600 * 16) / (60 * 16) / 4,
        la % (3600 * 16) / (60 * 16) % 4 * 64 + lo % (3600 * 16) / (60 * 16) % 4 * 16 +
          la % (3600 * 16) % (60 * 16) / 16 / 15 * 4 + lo % (3600 * 16) % (60 * 16) / 16 / 15,
        la % (3600 * 16) % (60 * 16) / 16 % 15 * 16 + lo % (3600 * 16) % (60 * 16) / 16 % 15,
        la % (3600 * 16) % (60 * 16) % 16 * 16 + lo % (3600 * 16) % (60 * 16) % 16 ] := rfl
  rw [hpack, h]
  have hla4 : la = 57600 * (la / (3600 * 16)) + 960 * (la % (3600 * 16) / (60 * 16)) +
      16 * (la % (3600 * 16) % (60 * 16) / 16) + la % (3600 * 16) % (60 * 16) % 16 := by
    omega
  have hlo4 : lo = 57600 * (lo / (3600 * 16)) + 960 * (lo % (3600 * 16) / (60 * 16)) +
      16 * (lo % (3600 * 16) % (60 * 16) / 16) + lo % (3600 * 16) % (60 * 16) % 16 := by
    omega
  have cla : (la : ℚ) = 57600 * ((la / (3600 * 16) : ℕ) : ℚ) +
      960 * ((la % (3600 * 16) / (60 * 16) : ℕ) : ℚ) +
      16 * ((la % (3600 * 16) % (60 * 16) / 16 : ℕ) : ℚ) +
      ((la % (3600 * 16) % (60 * 16) % 16 : ℕ) : ℚ) := by
    exact_mod_cast congrArg (Nat.cast : ℕ → ℚ) hla4
  have clo : (lo : ℚ) = 57600 * ((lo / (3600 * 16) : ℕ) : ℚ) +
      960 * ((lo % (3600 * 16) / (60 * 16) : ℕ) : ℚ) +
      16 * ((lo % (3600 * 16) % (60 * 16) / 16 : ℕ) : ℚ) +
      ((lo % (3600 * 16) % (60 * 16) % 16 : ℕ) : ℚ) := by
    exact_mod_cast congrArg (Nat.cast : ℕ → ℚ) hlo4
  rw [Prod.mk.injEq]
  constructor
  · rw [cla]; ring
  · rw [clo]; ring


/-! ## Round-trip and bounding-box decoder lemmas -/


theorem intCast_toNat_cast {a : ℤ} (h : 0 ≤ a) : ((a.toNat : ℕ) : ℚ) = (a : ℚ) := by
  rw [show ((a.toNat : ℕ) : ℚ) = ((a.toNat : ℤ) : ℚ) by push_cast; ring, Int.toNat_of_nonneg h]

theorem decode_encode (lat lon : ℚ) (h1 : -90 ≤ lat) (h2 : lat ≤ 90) :
    decode (encode lat lon []).2 =
      ((latUnits lat : ℚ) / 57600 - 90, (lonUnits lat lon : ℚ) / 57600) := by
  rw [encode_eq, if_neg (by push_neg; exact ⟨by linarith, by linarith⟩)]
  have hla : (latUnits lat).toNat ≤ 10368000 := by
    have h3 := latUnits_le h2
    have h4 := latUnits_nonneg h1
    omega
  have hlo : (lonUnits lat lon).toNat ≤ 20735999 := by
    have h3 := lonUnits_le lat lon
    have h4 := lonUnits_nonneg lat lon
    omega
  show decode (packBytes _ _) = _
  rw [decode_packBytes _ _ hla hlo,
    intCast_toNat_cast (latUnits_nonneg h1), intCast_toNat_cast (lonUnits_nonneg lat lon)]

theorem wrap360_eq_self {y : ℚ} (h0 : 0 ≤ y) (h1 : y < 360) : wrap360 y = y := by
  have hf : fmodQ y 360 = y := by
    unfold fmodQ truncQ
    rw [if_pos (by positivity)]
    have hq : ⌊y / 360⌋ = 0 := by
      rw [Int.floor_eq_zero_iff]
      exact Set.mem_Ico.mpr ⟨by positivity, by rw [div_lt_one (by norm_num)]; linarith⟩
    rw [hq]
    norm_num
  unfold wrap360
  rw [hf, if_neg (not_lt.mpr h0)]

theorem wrap360_idem (x : ℚ) : wrap360 (wrap360 x) = wrap360 x :=
  wrap360_eq_self (wrap360_nonneg x) (wrap360_lt x)



theorem latUnits_eq_zero_iff {lat : ℚ} (hg : isGrid lat) :
    latUnits lat = 0 ↔ lat = -90 := by
  constructor
  · intro h
    have := latUnits_grid hg
    rw [h] at this
    push_cast at this
    nlinarith [this]
  · intro h
    subst h
    have hgr := latUnits_grid hg
    norm_num at hgr
    exact_mod_cast hgr

theorem latUnits_eq_pole_iff {lat : ℚ} (hg : isGrid lat) :
    latUnits lat = 57600 * 180 ↔ lat = 90 := by
  constructor
  · intro h
    have := latUnits_grid hg
    rw [h] at this
    push_cast at this
    nlinarith [this]
  · intro h
    subst h
    have hgr := latUnits_grid hg
    norm_num at hgr
    rw [show (57600 * 180 : ℤ) = 10368000 by norm_num]
    exact_mod_cast hgr

/-- Round trip on the grid: exact recovery of the quantized point. -/
theorem decode_encode_grid {lat lon : ℚ} (h1 : -90 ≤ lat) (h2 : lat ≤ 90)
    (hglat : isGrid lat) (hglon : isGrid lon) :
    decode (encode lat lon []).2 =
      (lat, if lat = -90 ∨ lat = 90 then 0 else wrap360 lon) := by
  rw [decode_encode lat lon h1 h2]
  rw [Prod.mk.injEq]
  constructor
  · rw [latUnits_grid hglat]
    ring
  · unfold lonUnits
    by_cases hp : lat = -90 ∨ lat = 90
    · rw [if_pos ((or_congr (latUnits_eq_zero_iff hglat) (latUnits_eq_pole_iff hglat)).mpr hp),
        if_pos hp]
      norm_num
    · rw [if_neg (fun hc => hp
          ((or_congr (latUnits_eq_zero_iff hglat) (latUnits_eq_pole_iff hglat)).mp hc)),
        if_neg hp]
      rw [lonUnitsRaw_grid hglon]
      ring



theorem mkDecoder_eq (lat1 lon1 lat2 lon2 : ℚ) :
    mkDecoderWithBoundingBox lat1 lon1 lat2 lon2 =
      { lon1 := wrap360 lon1
      , lon2 := wrap360 lon2
      , min_lat := lat1
      , max_lat := lat2
      , start1 := ((latUnits lat1).toNat / (3600 * 16) +
          (lonUnitsRaw lon1).toNat / (3600 * 16) * 181) / 256 % 256
      , start2 := ((latUnits lat2).toNat / (3600 * 16) +
          (lonUnitsRaw lon2).toNat / (3600 * 16) * 181) / 256 % 256
      , include_poles :=
          (latUnits lat1 == 0 || latUnits lat1 == 57600 * 180) ||
            (latUnits lat2 == 0 || latUnits lat2 == 57600 * 180)
      , discontinuous_longitude_range := decide (wrap360 lon2 < wrap360 lon1) } := by
  unfold mkDecoderWithBoundingBox calc_latlon_16ths latUnits lonUnitsRaw wrap360
  rfl

theorem encode_getD0 (lat lon : ℚ) (h1 : -90 ≤ lat) (h2 : lat ≤ 90) :
    (encode lat lon []).2.getD 0 0 =
      ((latUnits lat).toNat / (3600 * 16) +
        (lonUnits lat lon).toNat / (3600 * 16) * 181) / 256 := by
  rw [encode_eq, if_neg (by push_neg; exact ⟨by linarith, by linarith⟩)]
  rfl



theorem decodeRest_accept_iff (b : DecoderWithBoundingBox) (v : List ℕ) (r : ℚ × ℚ) :
    (b.decodeRest v r).1 = true ↔
      (b.min_lat ≤ (GeoEncode.decode v).1 ∧ (GeoEncode.decode v).1 ≤ b.max_lat ∧
        ((GeoEncode.decode v).1 = -90 ∨ (GeoEncode.decode v).1 = 90 ∨
          (if b.discontinuous_longitude_range = true
           then ¬(b.lon2 < (GeoEncode.decode v).2 ∧ (GeoEncode.decode v).2 < b.lon1)
           else b.lon1 ≤ (GeoEncode.decode v).2 ∧ (GeoEncode.decode v).2 ≤ b.lon2))) := by
  unfold DecoderWithBoundingBox.decodeRest
  by_cases h1 : (GeoEncode.decode v).1 < b.min_lat ∨ (GeoEncode.decode v).1 > b.max_lat
  · rw [if_pos h1]
    simp only [Bool.false_eq_true, false_iff]
    intro hc
    rcases h1 with h1 | h1
    · exact absurd h1 (not_lt.mpr hc.1)
    · exact absurd h1 (not_lt.mpr hc.2.1)
  · rw [if_neg h1]
    push_neg at h1
    by_cases h2 : (GeoEncode.decode v).1 = -90 ∨ (GeoEncode.decode v).1 = 90
    · rw [if_pos h2]
      simp only [true_iff]
      exact ⟨h1.1, h1.2, by tauto⟩
    · rw [if_neg h2]
      push_neg at h2
      cases hd : b.discontinuous_longitude_range
      · simp only [hd, Bool.false_eq_true, if_false]
        by_cases h3 : (GeoEncode.decode v).2 < b.lon1 ∨ b.lon2 < (GeoEncode.decode v).2
        · rw [if_pos h3]
          simp only [Bool.false_eq_true, false_iff]
          intro hc
          rcases hc.2.2 with hc1 | hc1 | hc1
          · exact h2.1 hc1
          · exact h2.2 hc1
          · rcases h3 with h3 | h3
            · exact absurd h3 (not_lt.mpr hc1.1)
            · exact absurd h3 (not_lt.mpr hc1.2)
        · rw [if_neg h3]
          push_neg at h3
          simp only [true_iff]
          exact ⟨h1.1, h1.2, Or.inr (Or.inr ⟨h3.1, h3.2⟩)⟩
      · simp only [hd, if_true]
        by_cases h3 : b.lon2 < (GeoEncode.decode v).2 ∧ (GeoEncode.decode v).2 < b.lon1
        · rw [if_pos h3]
          simp only [Bool.false_eq_true, false_iff]
          intro hc
          rcases hc.2.2 with hc1 | hc1 | hc1
          · exact h2.1 hc1
          · exact h2.2 hc1
          · exact hc1 h3
        · rw [if_neg h3]
          simp only [true_iff]
          exact ⟨h1.1, h1.2, Or.inr (Or.inr h3)⟩

theorem decodeRest_result (b : DecoderWithBoundingBox) (v : List ℕ) (r : ℚ × ℚ) :
    ((b.decodeRest v r).1 = false → (b.decodeRest v r).2 = r) ∧
      ((b.decodeRest v r).1 = true → (b.decodeRest v r).2 = GeoEncode.decode v) := by
  unfold DecoderWithBoundingBox.decodeRest
  by_cases h1 : (GeoEncode.decode v).1 < b.min_lat ∨ (GeoEncode.decode v).1 > b.max_lat
  · rw [if_pos h1]
    exact ⟨fun _ => rfl, fun h => by simp at h⟩
  · rw [if_neg h1]
    by_cases h2 : (GeoEncode.decode v).1 = -90 ∨ (GeoEncode.decode v).1 = 90
    · rw [if_pos h2]
      exact ⟨fun h => by simp at h, fun _ => rfl⟩
    · rw [if_neg h2]
      cases hd : b.discontinuous_longitude_range
      · simp only [hd, Bool.false_eq_true, if_false]
        by_cases h3 : (GeoEncode.decode v).2 < b.lon1 ∨ b.lon2 < (GeoEncode.decode v).2
        · rw [if_pos h3]
          exact ⟨fun _ => rfl, fun h => by simp at h⟩
        · rw [if_neg h3]
          exact ⟨fun h => by simp at h, fun _ => rfl⟩
      · simp only [hd, if_true]
        by_cases h3 : b.lon2 < (GeoEncode.decode v).2 ∧ (GeoEncode.decode v).2 < b.lon1
        · rw [if_pos h3]
          exact ⟨fun _ => rfl, fun h => by simp at h⟩
        · rw [if_neg h3]
          exact ⟨fun h => by simp at h, fun _ => rfl⟩

theorem bbDecode_accept_iff (b : DecoderWithBoundingBox) (v : List ℕ) (r : ℚ × ℚ) :
    (b.decode v r).1 = true ↔
      ((if b.discontinuous_longitude_range = true then
          ¬(b.start2 < v.getD 0 0 % 256 ∧ v.getD 0 0 % 256 < b.start1 ∧
              ¬(b.include_poles = true ∧ v.getD 0 0 % 256 = 0))
        else
          ¬((v.getD 0 0 % 256 < b.start1 ∨ b.start2 < v.getD 0 0 % 256) ∧
              ¬(b.include_poles = true ∧ v.getD 0 0 % 256 = 0)))
        ∧ (b.decodeRest v r).1 = true) := by
  unfold DecoderWithBoundingBox.decode
  cases hd : b.discontinuous_longitude_range
  · simp only [hd, Bool.false_eq_true, if_false]
    by_cases hp : (v.getD 0 0 % 256 < b.start1 ∨ b.start2 < v.getD 0 0 % 256) ∧
        ¬(b.include_poles = true ∧ v.getD 0 0 % 256 = 0)
    · rw [if_pos hp]
      simp only [Bool.false_eq_true, false_iff]
      intro hc
      exact hc.1 hp
    · rw [if_neg hp]
      exact ⟨fun h => ⟨hp, h⟩, fun h => h.2⟩
  · simp only [hd, if_true]
    by_cases hp : b.start2 < v.getD 0 0 % 256 ∧ v.getD 0 0 % 256 < b.start1 ∧
        ¬(b.include_poles = true ∧ v.getD 0 0 % 256 = 0)
    · rw [if_pos hp]
      simp only [Bool.false_eq_true, false_iff]
      intro hc
      exact hc.1 hp
    · rw [if_neg hp]
      exact ⟨fun h => ⟨hp, h⟩, fun h => h.2⟩

theorem bbDecode_result (b : DecoderWithBoundingBox) (v : List ℕ) (r : ℚ × ℚ) :
    ((b.decode v r).1 = false → (b.decode v r).2 = r) ∧
      ((b.decode v r).1 = true → (b.decode v r).2 = GeoEncode.decode v) := by
  unfold DecoderWithBoundingBox.decode
  cases hd : b.discontinuous_longitude_range
  · simp only [hd, Bool.false_eq_true, if_false]
    by_cases hp : (v.getD 0 0 % 256 < b.start1 ∨ b.start2 < v.getD 0 0 % 256) ∧
        ¬(b.include_poles = true ∧ v.getD 0 0 % 256 = 0)
    · rw [if_pos hp]
      exact ⟨fun _ => rfl, fun h => by simp at h⟩
    · rw [if_neg hp]
      exact decodeRest_result b v r
  · simp only [hd, if_true]
    by_cases hp : b.start2 < v.getD 0 0 % 256 ∧ v.getD 0 0 % 256 < b.start1 ∧
        ¬(b.include_poles = true ∧ v.getD 0 0 % 256 = 0)
    · rw [if_pos hp]
      exact ⟨fun _ => rfl, fun h => by simp at h⟩
    · rw [if_neg hp]
      exact decodeRest_result b v r


/-! ## Concrete evaluation helpers -/


theorem roundQ_eq_of_eq_intCast {x : ℚ} {n : ℤ} (h : x = (n : ℚ)) : roundQ x = n := by
  rw [h, roundQ_intCast]

theorem roundQ_eval_floor {x : ℚ} {n : ℤ} (h0 : 0 ≤ x) (h1 : (n : ℚ) ≤ x + 1/2)
    (h2 : x + 1/2 < (n : ℚ) + 1) : roundQ x = n := by
  unfold roundQ
  rw [if_pos h0]
  exact Int.floor_eq_iff.mpr ⟨h1, h2⟩

theorem latUnits_eval {lat : ℚ} {n : ℤ} (h : (lat + 90) * 57600 = (n : ℚ)) :
    latUnits lat = n := by
  unfold latUnits
  exact roundQ_eq_of_eq_intCast h

theorem lonUnitsRaw_eval {lon : ℚ} {n : ℤ} (h : wrap360 lon * 57600 = (n : ℚ))
    (hne : n ≠ 20736000) : lonUnitsRaw lon = n := by
  unfold lonUnitsRaw
  rw [roundQ_eq_of_eq_intCast h, if_neg (by omega : ¬ n = 57600 * 360)]


/-! ## Claims -/


/-- C4: `encode(lat, lon, result)` returns failure if and only if
`lat < -90` or `lat > 90`, and on failure the output string `result` is
left exactly as it was before the call, with no partial append. -/
theorem c4_range_error (lat lon : ℚ) (res : List ℕ) :
    ((encode lat lon res).1 = false ↔ (lat < -90 ∨ lat > 90)) ∧
      ((encode lat lon res).1 = false → (encode lat lon res).2 = res) := by
  rw [encode_eq]
  by_cases h : lat < -90 ∨ lat > 90
  · rw [if_pos h]
    exact ⟨by simpa using h, fun _ => rfl⟩
  · rw [if_neg h]
    exact ⟨by simpa using h, fun hc => by simp at hc⟩

/-- C7: on every successful call, `encode` appends exactly 6 bytes to
the output string and leaves all bytes that were in the string before
the call unchanged, so the string's length grows by exactly 6. -/
theorem c7_appends_six (lat lon : ℚ) (res : List ℕ) (h : (encode lat lon res).1 = true) :
    (encode lat lon res).2.length = res.length + 6 ∧
      (encode lat lon res).2.take res.length = res := by
  rw [encode_eq] at h ⊢
  by_cases hc : lat < -90 ∨ lat > 90
  · rw [if_pos hc] at h
    simp at h
  · rw [if_neg hc]
    constructor
    · simp only [List.length_append]
      rfl
    · exact List.take_left res _

/-- C8: the two `encode` implementations present in the source (the
earlier version wrapping the longitude only in the non-pole branch, the
later one wrapping before the pole check) are extensionally equal: same
boolean, same bytes, for every input and every initial string. -/
theorem c8_versions_agree (lat lon : ℚ) (res : List ℕ) :
    encode_v1 lat lon res = encode lat lon res := rfl

/-- C6: for every 6-byte buffer and every k in {2,3,4,5}, decoding only
the first k bytes yields exactly the same coordinate as decoding the
6-byte buffer with bytes k..5 replaced by zero: truncation is never an
error and the omitted low-precision fields behave as if zero. -/
theorem c6_truncation (b0 b1 b2 b3 b4 _b5 : ℕ) :
    decode [b0, b1] = decode [b0, b1, 0, 0, 0, 0] ∧
      decode [b0, b1, b2] = decode [b0, b1, b2, 0, 0, 0] ∧
      decode [b0, b1, b2, b3] = decode [b0, b1, b2, b3, 0, 0] ∧
      decode [b0, b1, b2, b3, b4] = decode [b0, b1, b2, b3, b4, 0] := by
  refine ⟨?_, ?_, ?_, ?_⟩
  · rw [decode_cons2, decode_cons6]
    norm_num
  · rw [decode_cons3, decode_cons6]
    norm_num
  · rw [decode_cons4, decode_cons6]
    norm_num
  · rw [decode_cons5, decode_cons6]
    norm_num

/-- C3: encoding any coordinate whose latitude quantizes (rounds) to
exactly +90 or -90 (`latUnits lat = 0` or `= 57600*180` is the shifted
form of that condition) produces a buffer that decodes to longitude
exactly 0, for every longitude. -/
theorem c3_pole_collapse (lat lon : ℚ) (h1 : -90 ≤ lat) (h2 : lat ≤ 90)
    (hp : latUnits lat = 0 ∨ latUnits lat = 57600 * 180) :
    (decode (encode lat lon []).2).2 = 0 := by
  rw [decode_encode lat lon h1 h2]
  show (lonUnits lat lon : ℚ) / 57600 = 0
  unfold lonUnits
  rw [if_pos hp]
  norm_num

/-- C9: whenever `DecoderWithBoundingBox::decode` returns false, the
caller-supplied `result` out-parameter is left completely unmodified; it
is written only on the accepting paths, where it is set to exactly the
value the plain `decode` returns for the same buffer. -/
theorem c9_out_param (b : DecoderWithBoundingBox) (v : List ℕ) (r : ℚ × ℚ) :
    ((b.decode v r).1 = false → (b.decode v r).2 = r) ∧
      ((b.decode v r).1 = true → (b.decode v r).2 = GeoEncode.decode v) :=
  bbDecode_result b v r

/-- C5: for every successful `encode`, the first two appended bytes read
as a big-endian 16-bit integer equal `lat_degrees + lon_degrees * 181`
(the whole-degree parts of the quantized shifted latitude and of the
encoded longitude units); this value lies in 0..65159 and the first byte
is that combined index divided by 256. -/
theorem c5_degree_bytes (lat lon : ℚ) (res : List ℕ) (h : (encode lat lon res).1 = true) :
    ∃ bs : List ℕ,
      (encode lat lon res).2 = res ++ bs ∧ bs.length = 6 ∧
        bs.getD 0 0 * 256 + bs.getD 1 0 =
          (latUnits lat).toNat / (3600 * 16) + (lonUnits lat lon).toNat / (3600 * 16) * 181 ∧
        (latUnits lat).toNat / (3600 * 16) + (lonUnits lat lon).toNat / (3600 * 16) * 181 ≤ 65159 ∧
        bs.getD 0 0 =
          ((latUnits lat).toNat / (3600 * 16) + (lonUnits lat lon).toNat / (3600 * 16) * 181) / 256 := by
  rw [encode_eq] at h ⊢
  by_cases hc : lat < -90 ∨ lat > 90
  · rw [if_pos hc] at h
    simp at h
  · rw [if_neg hc]
    push_neg at hc
    refine ⟨packBytes (mkDMS (latUnits lat).toNat) (mkDMS (lonUnits lat lon).toNat),
      rfl, rfl, ?_, ?_, rfl⟩
    · show ((latUnits lat).toNat / (3600 * 16) + (lonUnits lat lon).toNat / (3600 * 16) * 181) / 256
          * 256 +
        ((latUnits lat).toNat / (3600 * 16) + (lonUnits lat lon).toNat / (3600 * 16) * 181) % 256 = _
      omega
    · have hla : (latUnits lat).toNat ≤ 10368000 := by
        have h3 := latUnits_le hc.2
        have h4 := latUnits_nonneg hc.1
        omega
      have hlo : (lonUnits lat lon).toNat ≤ 20735999 := by
        have h3 := lonUnits_le lat lon
        have h4 := lonUnits_nonneg lat lon
        omega
      omega

/-- C10: for every buffer of length at least 2 with arbitrary byte
contents, the decoded coordinate has latitude >= -90 and longitude >= 0:
the integer latitude part is the 16-bit prefix modulo 181 and every
fractional contribution is non-negative. -/
theorem c10_lower_bounds (v : List ℕ) (_h : 2 ≤ v.length) :
    -90 ≤ (decode v).1 ∧ 0 ≤ (decode v).2 := by
  unfold decode
  by_cases h2 : 2 < v.length
  · rw [if_pos h2]
    by_cases h3 : 3 < v.length
    · rw [if_pos h3]
      by_cases h4 : 4 < v.length
      · rw [if_pos h4]
        by_cases h5 : 5 < v.length
        · rw [if_pos h5]
          constructor
          · have : (0:ℚ) ≤ ((v.getD 0 0 % 256 * 256 + v.getD 1 0 % 256) % 181 : ℕ) +
                ((v.getD 2 0 / 16 * 4 : ℕ) + (v.getD 3 0 / 64 % 4 : ℕ) +
                  ((v.getD 3 0 / 4 % 4 * 15 : ℕ) + (v.getD 4 0 / 16 % 16 : ℕ) +
                    ((v.getD 5 0 / 16 : ℕ) : ℚ) / 16) / 60) / 60 := by positivity
            linarith
          · positivity
        · rw [if_neg h5]
          constructor
          · have : (0:ℚ) ≤ ((v.getD 0 0 % 256 * 256 + v.getD 1 0 % 256) % 181 : ℕ) +
                ((v.getD 2 0 / 16 * 4 : ℕ) + (v.getD 3 0 / 64 % 4 : ℕ) +
                  ((v.getD 3 0 / 4 % 4 * 15 : ℕ) + ((v.getD 4 0 / 16 % 16 : ℕ) : ℚ)) / 60) / 60 := by
              positivity
            linarith
          · positivity
      · rw [if_neg h4]
        constructor
        · have : (0:ℚ) ≤ ((v.getD 0 0 % 256 * 256 + v.getD 1 0 % 256) % 181 : ℕ) +
              ((v.getD 2 0 / 16 * 4 : ℕ) + (v.getD 3 0 / 64 % 4 : ℕ) +
                ((v.getD 3 0 / 4 % 4 * 15 : ℕ) : ℚ) / 60) / 60 := by positivity
          linarith
        · positivity
    · rw [if_neg h3]
      constructor
      · have : (0:ℚ) ≤ ((v.getD 0 0 % 256 * 256 + v.getD 1 0 % 256) % 181 : ℕ) +
            ((v.getD 2 0 / 16 * 4 : ℕ) : ℚ) / 60 := by positivity
        linarith
      · positivity
  · rw [if_neg h2]
    constructor
    · have : (0:ℚ) ≤ ((v.getD 0 0 % 256 * 256 + v.getD 1 0 % 256) % 181 : ℕ) := by positivity
      linarith
    · positivity


/-! ## Tie-case and fold evaluation helpers -/


theorem roundQ_intCast_add {x : ℚ} {n : ℤ} (hpos : 0 ≤ x + (n : ℚ)) (hnt : ¬ halfTie x) :
    roundQ (x + (n : ℚ)) = n + roundQ x := by
  unfold roundQ
  rw [if_pos hpos]
  by_cases h0 : 0 ≤ x
  · rw [if_pos h0, show x + (n : ℚ) + 1/2 = (x + 1/2) + (n : ℚ) by ring, Int.floor_add_int]
    ring
  · rw [if_neg h0, show x + (n : ℚ) + 1/2 = (x + 1/2) + (n : ℚ) by ring, Int.floor_add_int]
    have hni : ∀ m : ℤ, x - 1/2 ≠ (m : ℚ) := fun m hm => hnt ⟨m, hm⟩
    have h2 : ⌊x - 1/2⌋ ≠ ⌈x - 1/2⌉ := by
      intro he
      refine hni ⌊x - 1/2⌋ ?_
      have ha := Int.floor_le (x - 1/2)
      have hb := Int.le_ceil (x - 1/2)
      rw [← he] at hb
      linarith
    have h3 := Int.ceil_le_floor_add_one (x - 1/2)
    have h4 := Int.floor_le_ceil (x - 1/2)
    have h5 : ⌈x - 1/2⌉ = ⌊x - 1/2⌋ + 1 := by omega
    have h6 : ⌊x + 1/2⌋ = ⌊x - 1/2⌋ + 1 := by
      rw [show x + 1/2 = (x - 1/2) + ((1 : ℤ) : ℚ) by push_cast; ring, Int.floor_add_int]
    omega

theorem latUnits_shift {lat : ℚ} (h1 : -90 ≤ lat) (hnt : ¬ halfTie (lat * 57600)) :
    latUnits lat = 5184000 + roundQ (lat * 57600) := by
  unfold latUnits
  rw [show (lat + 90) * 57600 = lat * 57600 + ((5184000 : ℤ) : ℚ) by push_cast; ring]
  exact roundQ_intCast_add (by push_cast; nlinarith) hnt



theorem lonUnitsRaw_eval_fold {lon : ℚ} (h : roundQ (wrap360 lon * 57600) = 20736000) :
    lonUnitsRaw lon = 0 := by
  unfold lonUnitsRaw
  rw [h, if_pos (by norm_num)]


/-! ## Claims C1 and C2 -/

set_option maxHeartbeats 2000000 in
/-- C1 (amended): for every bounding box whose corner latitudes lie in
[-90, 90] with `lat1 <= lat2` and whose corner longitudes lie on the
1/16-arcsecond quantization grid, and for every grid coordinate
`(lat, lon)` with `lat` in [-90, 90],
`DecoderWithBoundingBox(lat1,lon1,lat2,lon2).decode` accepts
`encode(lat, lon)` if and only if `lat1 <= lat <= lat2` and either `lat`
is exactly a pole or the wrapped `lon` lies in the wrapped longitude
interval from `lon1` to `lon2` (taken across the 0/360 seam when wrapped
`lon1` exceeds wrapped `lon2`); in particular the O(1) first-byte prefix
rejection never rejects a point this direct range check admits.  (The
grid restriction on the corner longitudes is forced by
`c1_counterexample`: a corner longitude within half a grid unit below
360 has its quantized units folded to 0, collapsing that corner's start
byte and making the prefix test reject in-box points.) -/
theorem c1_bbox_equiv (lat1 lon1 lat2 lon2 lat lon : ℚ) (r : ℚ × ℚ)
    (hl1 : -90 ≤ lat1) (h12 : lat1 ≤ lat2) (hl2 : lat2 ≤ 90)
    (hg1 : isGrid lon1) (hg2 : isGrid lon2)
    (hlat1 : -90 ≤ lat) (hlat2 : lat ≤ 90) (hglat : isGrid lat) (hglon : isGrid lon) :
    ((mkDecoderWithBoundingBox lat1 lon1 lat2 lon2).decode (encode lat lon []).2 r).1 = true ↔
      inBoxSpec lat1 lon1 lat2 lon2 lat lon := by
  have hdec : GeoEncode.decode (encode lat lon []).2 =
      (lat, if lat = -90 ∨ lat = 90 then 0 else wrap360 lon) :=
    decode_encode_grid hlat1 hlat2 hglat hglon
  rw [bbDecode_accept_iff, decodeRest_accept_iff, mkDecoder_eq, hdec,
    encode_getD0 lat lon hlat1 hlat2]
  simp only [decide_eq_true_eq, Bool.or_eq_true, beq_iff_eq]
  unfold inBoxSpec
  have bA1 : 0 ≤ latUnits lat := latUnits_nonneg hlat1
  have bA2 : latUnits lat ≤ 10368000 := latUnits_le hlat2
  have bA11 : 0 ≤ latUnits lat1 := latUnits_nonneg hl1
  have bA12 : latUnits lat1 ≤ 10368000 := latUnits_le (le_trans h12 hl2)
  have bA21 : 0 ≤ latUnits lat2 := latUnits_nonneg (le_trans hl1 h12)
  have bA22 : latUnits lat2 ≤ 10368000 := latUnits_le hl2
  have bL1 : 0 ≤ lonUnitsRaw lon1 := lonUnitsRaw_nonneg lon1
  have bL2 : lonUnitsRaw lon1 ≤ 20735999 := lonUnitsRaw_le lon1
  have bM1 : 0 ≤ lonUnitsRaw lon2 := lonUnitsRaw_nonneg lon2
  have bM2 : lonUnitsRaw lon2 ≤ 20735999 := lonUnitsRaw_le lon2
  have bN1 : 0 ≤ lonUnitsRaw lon := lonUnitsRaw_nonneg lon
  have bN2 : lonUnitsRaw lon ≤ 20735999 := lonUnitsRaw_le lon
  have hL1c : ((lonUnitsRaw lon1 : ℤ) : ℚ) = wrap360 lon1 * 57600 := lonUnitsRaw_grid hg1
  have hL2c : ((lonUnitsRaw lon2 : ℤ) : ℚ) = wrap360 lon2 * 57600 := lonUnitsRaw_grid hg2
  have hLc : ((lonUnitsRaw lon : ℤ) : ℚ) = wrap360 lon * 57600 := lonUnitsRaw_grid hglon
  have hpiff : (latUnits lat = 0 ∨ latUnits lat = 57600 * 180) ↔ (lat = -90 ∨ lat = 90) :=
    or_congr (latUnits_eq_zero_iff hglat) (latUnits_eq_pole_iff hglat)
  have e1 : ((latUnits lat1).toNat / (3600 * 16) + (lonUnitsRaw lon1).toNat / (3600 * 16) * 181)
      / 256 % 256 =
      ((latUnits lat1).toNat / (3600 * 16) + (lonUnitsRaw lon1).toNat / (3600 * 16) * 181) / 256 :=
    Nat.mod_eq_of_lt (by omega)
  have e2 : ((latUnits lat2).toNat / (3600 * 16) + (lonUnitsRaw lon2).toNat / (3600 * 16) * 181)
      / 256 % 256 =
      ((latUnits lat2).toNat / (3600 * 16) + (lonUnitsRaw lon2).toNat / (3600 * 16) * 181) / 256 :=
    Nat.mod_eq_of_lt (by omega)
  by_cases hpole : lat = -90 ∨ lat = 90
  · have hP := hpiff.mpr hpole
    have hlz : lonUnits lat lon = 0 := by
      unfold lonUnits
      rw [if_pos hP]
    simp only [if_pos hpole, hlz]
    have hstart0 : ((latUnits lat).toNat / (3600 * 16) + (0 : ℤ).toNat / (3600 * 16) * 181)
        / 256 % 256 = 0 := by
      rcases hP with h | h <;> rw [h] <;> decide
    constructor
    · rintro ⟨_, h1, h2, _⟩
      exact ⟨h1, h2, by tauto⟩
    · rintro ⟨h1, h2, _⟩
      have hpoles : (latUnits lat1 = 0 ∨ latUnits lat1 = 57600 * 180) ∨
          latUnits lat2 = 0 ∨ latUnits lat2 = 57600 * 180 := by
        rcases hpole with hp | hp
        · left; left
          have hq : lat1 = -90 := le_antisymm (hp ▸ h1) hl1
          rw [hq]
          exact latUnits_eval (by norm_num)
        · right; right
          have hq : lat2 = 90 := le_antisymm hl2 (hp ▸ h2)
          rw [hq]
          exact latUnits_eval (by norm_num)
      refine ⟨?_, h1, h2, by tauto⟩
      split
      · rintro ⟨hd1, hd2, hd3⟩
        exact hd3 ⟨hpoles, hstart0⟩
      · rintro ⟨hd1, hd2⟩
        exact hd2 ⟨hpoles, hstart0⟩
  · have hlnz : lonUnits lat lon = lonUnitsRaw lon := by
      unfold lonUnits
      rw [if_neg (fun hc => hpole (hpiff.mp hc))]
    simp only [if_neg hpole, hlnz]
    push_neg at hpole
    have e0 : ((latUnits lat).toNat / (3600 * 16) + (lonUnitsRaw lon).toNat / (3600 * 16) * 181)
        / 256 % 256 =
        ((latUnits lat).toNat / (3600 * 16) + (lonUnitsRaw lon).toNat / (3600 * 16) * 181) / 256 :=
      Nat.mod_eq_of_lt (by omega)
    rw [e0, e1, e2]
    by_cases hWo : wrap360 lon1 ≤ wrap360 lon2
    · rw [if_neg (not_lt.mpr hWo), if_neg (not_lt.mpr hWo), if_pos hWo]
      constructor
      · rintro ⟨_, h1, h2, h3⟩
        refine ⟨h1, h2, ?_⟩
        rcases h3 with h3 | h3 | h3
        · exact absurd h3 hpole.1
        · exact absurd h3 hpole.2
        · exact Or.inr (Or.inr h3)
      · rintro ⟨h1, h2, h3⟩
        have hlon : wrap360 lon1 ≤ wrap360 lon ∧ wrap360 lon ≤ wrap360 lon2 := by
          rcases h3 with h3 | h3 | h3
          · exact absurd h3 hpole.1
          · exact absurd h3 hpole.2
          · exact h3
        refine ⟨?_, h1, h2, Or.inr (Or.inr hlon)⟩
        have m3 : lonUnitsRaw lon1 ≤ lonUnitsRaw lon := by
          have hc : ((lonUnitsRaw lon1 : ℤ) : ℚ) ≤ ((lonUnitsRaw lon : ℤ) : ℚ) := by
            rw [hL1c, hLc]
            nlinarith [hlon.1]
          exact_mod_cast hc
        have m4 : lonUnitsRaw lon ≤ lonUnitsRaw lon2 := by
          have hc : ((lonUnitsRaw lon : ℤ) : ℚ) ≤ ((lonUnitsRaw lon2 : ℤ) : ℚ) := by
            rw [hL2c, hLc]
            nlinarith [hlon.2]
          exact_mod_cast hc
        have s1 : ((latUnits lat1).toNat / (3600 * 16) +
              (lonUnitsRaw lon1).toNat / (3600 * 16) * 181) / 256 ≤
            ((latUnits lat).toNat / (3600 * 16) +
              (lonUnitsRaw lon).toNat / (3600 * 16) * 181) / 256 := by
          have := latUnits_mono h1
          apply Nat.div_le_div_right
          have u1 : (latUnits lat1).toNat / (3600 * 16) ≤ (latUnits lat).toNat / (3600 * 16) :=
            Nat.div_le_div_right (Int.toNat_le_toNat (latUnits_mono h1))
          have u2 : (lonUnitsRaw lon1).toNat / (3600 * 16) ≤ (lonUnitsRaw lon).toNat / (3600 * 16) :=
            Nat.div_le_div_right (Int.toNat_le_toNat m3)
          exact Nat.add_le_add u1 (Nat.mul_le_mul_right 181 u2)
        have s2 : ((latUnits lat).toNat / (3600 * 16) +
              (lonUnitsRaw lon).toNat / (3600 * 16) * 181) / 256 ≤
            ((latUnits lat2).toNat / (3600 * 16) +
              (lonUnitsRaw lon2).toNat / (3600 * 16) * 181) / 256 := by
          apply Nat.div_le_div_right
          have u1 : (latUnits lat).toNat / (3600 * 16) ≤ (latUnits lat2).toNat / (3600 * 16) :=
            Nat.div_le_div_right (Int.toNat_le_toNat (latUnits_mono h2))
          have u2 : (lonUnitsRaw lon).toNat / (3600 * 16) ≤ (lonUnitsRaw lon2).toNat / (3600 * 16) :=
            Nat.div_le_div_right (Int.toNat_le_toNat m4)
          exact Nat.add_le_add u1 (Nat.mul_le_mul_right 181 u2)
        rintro ⟨hd1, hd2⟩
        rcases hd1 with hd1 | hd1
        · exact absurd hd1 (not_lt.mpr s1)
        · exact absurd hd1 (not_lt.mpr s2)
    · push_neg at hWo
      rw [if_pos hWo, if_pos hWo, if_neg (not_le.mpr hWo)]
      constructor
      · rintro ⟨_, h1, h2, h3⟩
        refine ⟨h1, h2, ?_⟩
        rcases h3 with h3 | h3 | h3
        · exact absurd h3 hpole.1
        · exact absurd h3 hpole.2
        · right; right
          rcases not_and_or.mp h3 with h4 | h4
          · exact Or.inr (not_lt.mp h4)
          · exact Or.inl (not_lt.mp h4)
      · rintro ⟨h1, h2, h3⟩
        have hlon : wrap360 lon1 ≤ wrap360 lon ∨ wrap360 lon ≤ wrap360 lon2 := by
          rcases h3 with h3 | h3 | h3
          · exact absurd h3 hpole.1
          · exact absurd h3 hpole.2
          · exact h3
        have hnl : ¬(wrap360 lon2 < wrap360 lon ∧ wrap360 lon < wrap360 lon1) := by
          rcases hlon with h4 | h4
          · exact fun hc => absurd h4 (not_le.mpr hc.2)
          · exact fun hc => absurd h4 (not_le.mpr hc.1)
        refine ⟨?_, h1, h2, Or.inr (Or.inr hnl)⟩
        rcases hlon with h4 | h4
        · have m3 : lonUnitsRaw lon1 ≤ lonUnitsRaw lon := by
            have hc : ((lonUnitsRaw lon1 : ℤ) : ℚ) ≤ ((lonUnitsRaw lon : ℤ) : ℚ) := by
              rw [hL1c, hLc]
              nlinarith [h4]
            exact_mod_cast hc
          have s1 : ((latUnits lat1).toNat / (3600 * 16) +
                (lonUnitsRaw lon1).toNat / (3600 * 16) * 181) / 256 ≤
              ((latUnits lat).toNat / (3600 * 16) +
                (lonUnitsRaw lon).toNat / (3600 * 16) * 181) / 256 := by
            apply Nat.div_le_div_right
            have u1 : (latUnits lat1).toNat / (3600 * 16) ≤ (latUnits lat).toNat / (3600 * 16) :=
              Nat.div_le_div_right (Int.toNat_le_toNat (latUnits_mono h1))
            have u2 : (lonUnitsRaw lon1).toNat / (3600 * 16) ≤
                (lonUnitsRaw lon).toNat / (3600 * 16) :=
              Nat.div_le_div_right (Int.toNat_le_toNat m3)
            exact Nat.add_le_add u1 (Nat.mul_le_mul_right 181 u2)
          rintro ⟨hd1, hd2, hd3⟩
          exact absurd hd2 (not_lt.mpr s1)
        · have m4 : lonUnitsRaw lon ≤ lonUnitsRaw lon2 := by
            have hc : ((lonUnitsRaw lon : ℤ) : ℚ) ≤ ((lonUnitsRaw lon2 : ℤ) : ℚ) := by
              rw [hL2c, hLc]
              nlinarith [h4]
            exact_mod_cast hc
          have s2 : ((latUnits lat).toNat / (3600 * 16) +
                (lonUnitsRaw lon).toNat / (3600 * 16) * 181) / 256 ≤
              ((latUnits lat2).toNat / (3600 * 16) +
                (lonUnitsRaw lon2).toNat / (3600 * 16) * 181) / 256 := by
            apply Nat.div_le_div_right
            have u1 : (latUnits lat).toNat / (3600 * 16) ≤ (latUnits lat2).toNat / (3600 * 16) :=
              Nat.div_le_div_right (Int.toNat_le_toNat (latUnits_mono h2))
            have u2 : (lonUnitsRaw lon).toNat / (3600 * 16) ≤
                (lonUnitsRaw lon2).toNat / (3600 * 16) :=
              Nat.div_le_div_right (Int.toNat_le_toNat m4)
            exact Nat.add_le_add u1 (Nat.mul_le_mul_right 181 u2)
          rintro ⟨hd1, hd2, hd3⟩
          exact absurd hd1 (not_lt.mpr s2)


/-- C2 (amended): for every `lat` in [-90, 90] and every rational `lon`,
`encode(lat, lon)` succeeds, decoding its output yields exactly
`round((lat+90)*57600)/57600 - 90` as latitude (which equals the claim's
`round(lat*57600)/57600` whenever `lat*57600` is not an exact
half-integer tie; at such ties the code rounds the shifted value up
while the claim's formula rounds away from zero, see
`c2_counterexample`), and yields exactly the claim's longitude:
`wrap360(round(wrap360(lon)*57600))/57600` with the 360-degree fold,
except that at a quantized pole the longitude is 0.  Equalities are
exact, hence within 1e-8. -/
theorem c2_round_trip (lat lon : ℚ) (h1 : -90 ≤ lat) (h2 : lat ≤ 90) :
    (encode lat lon []).1 = true ∧
    (decode (encode lat lon []).2).1 = (latUnits lat : ℚ) / 57600 - 90 ∧
    (¬ halfTie (lat * 57600) →
      (decode (encode lat lon []).2).1 = (roundQ (lat * 57600) : ℚ) / 57600) ∧
    (decode (encode lat lon []).2).2 =
      (if latUnits lat = 0 ∨ latUnits lat = 57600 * 180 then 0
       else ((if roundQ (wrap360 lon * 57600) = 57600 * 360 then 0
              else roundQ (wrap360 lon * 57600)) : ℚ) / 57600) := by
  have henc : (encode lat lon []).1 = true := by
    rw [encode_eq, if_neg (by push_neg; exact ⟨by linarith, by linarith⟩)]
  have hd := decode_encode lat lon h1 h2
  refine ⟨henc, ?_, ?_, ?_⟩
  · rw [hd]
  · intro hnt
    rw [hd]
    show (latUnits lat : ℚ) / 57600 - 90 = _
    rw [latUnits_shift h1 hnt]
    push_cast
    ring
  · rw [hd]
    show (lonUnits lat lon : ℚ) / 57600 = _
    unfold lonUnits lonUnitsRaw
    split
    · norm_num
    · split <;> norm_num


/-- C1 counterexample: the claim as stated (arbitrary real corner
longitudes) is false.  For the box `(-10, 5, 10, 359.9999999)` and the
grid point `(0, 100)`, the direct range check admits the point but the
decoder's first-byte prefix test rejects it: the east corner longitude
rounds to 20736000 units, which `calc_latlon_16ths` folds to 0, so
`start2 = 0 < start = 71`. -/
theorem c1_counterexample :
    ((-10 : ℚ) ≤ 10) ∧ isGrid (0 : ℚ) ∧ isGrid (100 : ℚ) ∧
    ((-90 : ℚ) ≤ 0) ∧ ((0 : ℚ) ≤ 90) ∧
    ((mkDecoderWithBoundingBox (-10) 5 10 (3599999999 / 10000000)).decode
        (encode 0 100 []).2 (0, 0)).1 = false ∧
    inBoxSpec (-10) 5 10 (3599999999 / 10000000) 0 100 := by
  have w5 : wrap360 (5 : ℚ) = 5 := wrap360_eq_self (by norm_num) (by norm_num)
  have wq : wrap360 (3599999999 / 10000000 : ℚ) = 3599999999 / 10000000 :=
    wrap360_eq_self (by norm_num) (by norm_num)
  have w100 : wrap360 (100 : ℚ) = 100 := wrap360_eq_self (by norm_num) (by norm_num)
  have e_10 : latUnits (-10 : ℚ) = 4608000 := latUnits_eval (by norm_num)
  have e10 : latUnits (10 : ℚ) = 5760000 := latUnits_eval (by norm_num)
  have e0 : latUnits (0 : ℚ) = 5184000 := latUnits_eval (by norm_num)
  have hlr5 : lonUnitsRaw (5 : ℚ) = 288000 := lonUnitsRaw_eval (by rw [w5]; norm_num) (by norm_num)
  have hlrq : lonUnitsRaw (3599999999 / 10000000 : ℚ) = 0 :=
    lonUnitsRaw_eval_fold (by
      rw [wq]
      exact roundQ_eval_floor (by norm_num) (by norm_num) (by norm_num))
  have hlon : lonUnits 0 100 = 5760000 := by
    unfold lonUnits
    rw [e0, if_neg (by norm_num)]
    exact lonUnitsRaw_eval (by rw [w100]; norm_num) (by norm_num)
  have hB : mkDecoderWithBoundingBox (-10) 5 10 (3599999999 / 10000000) =
      ⟨5, 3599999999 / 10000000, -10, 10, 3, 0, false, false⟩ := by
    rw [mkDecoder_eq, e_10, e10, hlr5, hlrq, w5, wq]
    norm_num [DecoderWithBoundingBox.mk.injEq]
    decide
  refine ⟨by norm_num, ⟨0, by norm_num⟩, ⟨5760000, by norm_num⟩, by norm_num, by norm_num, ?_, ?_⟩
  · have hmain : ¬ (((mkDecoderWithBoundingBox (-10) 5 10 (3599999999 / 10000000)).decode
        (encode 0 100 []).2 (0, 0)).1 = true) := by
      rw [bbDecode_accept_iff]
      rintro ⟨hpf, -⟩
      rw [hB, encode_getD0 0 100 (by norm_num) (by norm_num), e0, hlon] at hpf
      simp only [Bool.false_eq_true, if_false] at hpf
      exact hpf ⟨Or.inr (by decide), by simp⟩
    exact Bool.not_eq_true _ ▸ hmain
  · unfold inBoxSpec
    rw [w5, wq, w100]
    refine ⟨by norm_num, by norm_num, Or.inr (Or.inr ?_)⟩
    rw [if_pos (by norm_num)]
    norm_num


/-- C2 counterexample: at `lat = -1/512` (an exact representable value
whose scaled latitude is the half-integer -112.5), the decoded latitude
is `-112/57600` while the claim's formula `round(lat*57600)/57600` gives
`-113/57600`; they differ by `1/57600 > 1e-8`. -/
theorem c2_counterexample :
    (-90 ≤ (-1/512 : ℚ)) ∧ ((-1/512 : ℚ) ≤ 90) ∧
    1/100000000 < |(decode (encode (-1/512 : ℚ) 0 []).2).1 -
      (roundQ ((-1/512 : ℚ) * 57600) : ℚ) / 57600| := by
  refine ⟨by norm_num, by norm_num, ?_⟩
  have hd := decode_encode (-1/512 : ℚ) 0 (by norm_num) (by norm_num)
  have hlu : latUnits (-1/512 : ℚ) = 5183888 := by
    unfold latUnits
    exact roundQ_eval_floor (by norm_num) (by norm_num) (by norm_num)
  have hr : roundQ ((-1/512 : ℚ) * 57600) = -113 := by
    unfold roundQ
    rw [if_neg (by norm_num),
      show (-1/512 : ℚ) * 57600 - 1/2 = ((-113 : ℤ) : ℚ) by norm_num]
    exact Int.ceil_intCast _
  rw [hd, hr, hlu]
  show 1/100000000 < |((5183888 : ℤ) : ℚ) / 57600 - 90 - ((-113 : ℤ) : ℚ) / 57600|
  rw [show ((5183888 : ℤ) : ℚ) / 57600 - 90 - ((-113 : ℤ) : ℚ) / 57600 = 1/57600 by
    push_cast
    norm_num]
  rw [abs_of_pos (by norm_num : (0:ℚ) < 1/57600)]
  norm_num


/-! ## Witnesses: concrete instantiations of the claim theorems -/

/-- Field evaluation of a concrete bounding-box decoder, used by the C9
witness. -/
theorem bbox_fields_example : mkDecoderWithBoundingBox (-10) 0 10 50 =
    ⟨0, 50, -10, 10, 0, 35, false, false⟩ := by
  rw [mkDecoder_eq]
  have w0 : wrap360 (0:ℚ) = 0 := wrap360_eq_self (by norm_num) (by norm_num)
  have w50 : wrap360 (50:ℚ) = 50 := wrap360_eq_self (by norm_num) (by norm_num)
  have e1 : latUnits (-10 : ℚ) = 4608000 := latUnits_eval (by norm_num)
  have e2 : lonUnitsRaw (0 : ℚ) = 0 := lonUnitsRaw_eval (by rw [w0]; norm_num) (by norm_num)
  have e3 : latUnits (10 : ℚ) = 5760000 := latUnits_eval (by norm_num)
  have e4 : lonUnitsRaw (50 : ℚ) = 2880000 :=
    lonUnitsRaw_eval (by rw [w50]; norm_num) (by norm_num)
  rw [e1, e2, e3, e4, w0, w50]
  norm_num [DecoderWithBoundingBox.mk.injEq]
  decide

theorem decode_pair_example : GeoEncode.decode [18, 7] = (0, 25) := by
  rw [decode_cons2]
  norm_num

theorem bbox_accepts_example :
    ((mkDecoderWithBoundingBox (-10) 0 10 50).decode [18, 7] (3, 3)).1 = true := by
  rw [bbox_fields_example]
  unfold DecoderWithBoundingBox.decode DecoderWithBoundingBox.decodeRest
  norm_num [decode_pair_example]

theorem bbox_rejects_example :
    ((mkDecoderWithBoundingBox (-10) 0 10 50).decode [90, 0] (3, 3)).1 = false := by
  rw [bbox_fields_example]
  unfold DecoderWithBoundingBox.decode DecoderWithBoundingBox.decodeRest
  norm_num

/-- Witness for C1 at the box `(-90, -60, 10, 50)` and point `(0, 50)`. -/
theorem c1_witness :
    isGrid (-60 : ℚ) ∧ isGrid (50 : ℚ) ∧ isGrid (0 : ℚ) ∧
    (((mkDecoderWithBoundingBox (-90) (-60) 10 50).decode (encode 0 50 []).2 (0, 0)).1 = true ↔
      inBoxSpec (-90) (-60) 10 50 0 50) :=
  ⟨⟨-3456000, by norm_num⟩, ⟨2880000, by norm_num⟩, ⟨0, by norm_num⟩,
    c1_bbox_equiv (-90) (-60) 10 50 0 50 (0, 0) (by norm_num) (by norm_num) (by norm_num)
      ⟨-3456000, by norm_num⟩ ⟨2880000, by norm_num⟩ (by norm_num) (by norm_num)
      ⟨0, by norm_num⟩ ⟨2880000, by norm_num⟩⟩

/-- Witness for C2 at `(0.2, 23.8)`, with the tie-free clause discharged. -/
theorem c2_witness :
    (-90 ≤ (1/5 : ℚ)) ∧ ((1/5 : ℚ) ≤ 90) ∧ ¬ halfTie ((1/5 : ℚ) * 57600) ∧
    ((encode (1/5 : ℚ) (119/5) []).1 = true ∧
      (decode (encode (1/5 : ℚ) (119/5) []).2).1 = (latUnits (1/5) : ℚ) / 57600 - 90 ∧
      (decode (encode (1/5 : ℚ) (119/5) []).2).1 = (roundQ ((1/5 : ℚ) * 57600) : ℚ) / 57600) := by
  have hnt : ¬ halfTie ((1/5 : ℚ) * 57600) := by
    rintro ⟨n, hn⟩
    have h2 : ((2 * n : ℤ) : ℚ) = 23039 := by push_cast; linarith [hn]
    have h3 : (2 * n : ℤ) = 23039 := by exact_mod_cast h2
    omega
  have h := c2_round_trip (1/5) (119/5) (by norm_num) (by norm_num)
  exact ⟨by norm_num, by norm_num, hnt, h.1, h.2.1, h.2.2.1 hnt⟩

/-- Witness for C3: `encode(-90, 1)` decodes with longitude exactly 0. -/
theorem c3_witness : (decode (encode (-90) 1 []).2).2 = 0 := by
  refine c3_pole_collapse (-90) 1 (by norm_num) (by norm_num) (Or.inl ?_)
  exact latUnits_eval (by norm_num)

/-- Witness for C4: out-of-range latitudes fail and do not touch the
buffer. -/
theorem c4_witness : ((encode 91 0 [5]).1 = false) ∧ ((encode 91 0 [5]).2 = [5]) ∧
    ((encode (-91) 0 [7]).1 = false) ∧ ((encode (-91) 0 [7]).2 = [7]) := by
  have h1 := (c4_range_error 91 0 [5]).1.mpr (by norm_num)
  have h2 := (c4_range_error (-91) 0 [7]).1.mpr (by norm_num)
  exact ⟨h1, (c4_range_error 91 0 [5]).2 h1, h2, (c4_range_error (-91) 0 [7]).2 h2⟩

/-- Witness for C5 at `(0, 50)`. -/
theorem c5_witness : ∃ bs : List ℕ,
    (encode 0 50 []).2 = [] ++ bs ∧ bs.length = 6 ∧
      bs.getD 0 0 * 256 + bs.getD 1 0 =
        (latUnits 0).toNat / (3600 * 16) + (lonUnits 0 50).toNat / (3600 * 16) * 181 ∧
      (latUnits 0).toNat / (3600 * 16) + (lonUnits 0 50).toNat / (3600 * 16) * 181 ≤ 65159 ∧
      bs.getD 0 0 =
        ((latUnits 0).toNat / (3600 * 16) + (lonUnits 0 50).toNat / (3600 * 16) * 181) / 256 :=
  c5_degree_bytes 0 50 [] (by rw [encode_eq, if_neg (by norm_num)])

/-- Witness for C7 at `(0, 0)` with a nonempty initial buffer. -/
theorem c7_witness : (encode 0 0 [9]).2.length = 7 ∧ (encode 0 0 [9]).2.take 1 = [9] := by
  have h := c7_appends_six 0 0 [9] (by rw [encode_eq, if_neg (by norm_num)])
  simpa using h

/-- Witness for C9: one rejected buffer leaves the out-parameter alone,
one accepted buffer sets it to the plain decode. -/
theorem c9_witness :
    ((mkDecoderWithBoundingBox (-10) 0 10 50).decode [90, 0] (3, 3)).2 = (3, 3) ∧
    ((mkDecoderWithBoundingBox (-10) 0 10 50).decode [18, 7] (3, 3)).2 =
      GeoEncode.decode [18, 7] :=
  ⟨(c9_out_param (mkDecoderWithBoundingBox (-10) 0 10 50) [90, 0] (3, 3)).1
      bbox_rejects_example,
    (c9_out_param (mkDecoderWithBoundingBox (-10) 0 10 50) [18, 7] (3, 3)).2
      bbox_accepts_example⟩

/-- Witness for C10 on an all-0xFF corrupt buffer. -/
theorem c10_witness : -90 ≤ (decode [255, 255, 255, 255, 255, 255]).1 ∧
    0 ≤ (decode [255, 255, 255, 255, 255, 255]).2 :=
  c10_lower_bounds [255, 255, 255, 255, 255, 255] (by norm_num)

end GeoEncode
